import Mathlib

/-!
# CRoaring memory subsystem and container directory

A shallow embedding of `src/lin_alloc.c` (the linear allocator), of
`src/memory.c` (the memory hook registry) and of the inline functions of
`include/roaring/roaring_array.h` (the container directory).

Modelling conventions for the linear allocator.

* An address is a natural number and `NULL` is the address `0`.  A pointer has
  the width of `size_t`, so a pointer value and a `size_t` value are natural
  numbers below `256 ^ sizeof(size_t)`.
* Every sum and difference the source computes on pointers or on `uintptr_t`
  (`allocator->head + size`, `allocator->head += size`,
  `(uintptr_t)ptr + original_size`, `(uintptr_t)ptr - sizeof(size_t)`) wraps at
  that width, as it does on the target: `ptr_add` and `ptr_sub`.  So does the
  `size_t` product `size * count` of `lin_alloc_calloc`.
* A state whose three pointers are pointer values is `PointerValued`; the
  functions keep it so.
* `sizeof(size_t)` and `sizeof(max_align_t)` come from the platform headers,
  not from this repository; they are the two fields of `Platform`.
* Memory is a total map from addresses to byte values.  `memcpy` and `memset`
  are the libc routines; they are modelled by their effect on that map, an
  object representation being little-endian.  A store whose destination is
  `NULL` is undefined behaviour in C; in the embedding it shows up as a store
  to the addresses `0, 1, ..`.
* `lin_alloc_realign` computes `head % alignment`; C leaves that undefined for
  `alignment = 0`, so statements about it carry `0 < alignment` where the
  value matters.

Modelling conventions for the registry and the directory.

* A hook function is a function on a world it may change.  For the default
  hook the world is the platform allocator, which records the calls it gets.
* The arrays of a directory are maps from slot indices to elements.  A
  parameter of type `uint16_t` that receives an index reduces it modulo 65536.
  A failed `assert` is the result `none`.
-/

namespace CRoaring

/-- Platform constants used by `lin_alloc.c` through `sizeof`. -/
structure Platform where
  sizeof_size_t : Nat
  sizeof_max_align_t : Nat
  size_t_pos : 0 < sizeof_size_t
  max_align_pos : 0 < sizeof_max_align_t

/-- One more than `SIZE_MAX`: the number of values of type `size_t`. -/
def Platform.size_t_card (pf : Platform) : Nat := 256 ^ pf.sizeof_size_t

/-- The x86-64 System V platform: 8-byte `size_t`, 32-byte `max_align_t`. -/
def lp64 : Platform := ⟨8, 32, by decide, by decide⟩

/-- The null pointer. -/
def NULL : Nat := 0

/-- Byte-addressed memory. -/
abbrev Memory := Nat → Nat

/-- The arena record of `lin_alloc.h`: three byte pointers. -/
structure lin_alloc_t where
  buf : Nat
  head : Nat
  end_ : Nat
deriving DecidableEq

/-- What a call can read and change: the arena record and the memory. -/
structure State where
  allocator : lin_alloc_t
  mem : Memory

/-- Libc `memset(dst, c, n)`. -/
def memset (mem : Memory) (dst c n : Nat) : Memory :=
  fun a => if dst ≤ a ∧ a < dst + n then c else mem a

/-- Libc `memcpy(dst, src, n)` between two regions of memory. -/
def memcpy (mem : Memory) (dst src n : Nat) : Memory :=
  fun a => if dst ≤ a ∧ a < dst + n then mem (src + (a - dst)) else mem a

/-- Little-endian value of the `k` bytes `f 0, .., f (k-1)`. -/
def le_decode (f : Nat → Nat) : Nat → Nat
  | 0 => 0
  | k + 1 => f 0 + 256 * le_decode (fun i => f (i + 1)) k

/-- The call `memcpy(addr, &v, sizeof(v))` for a `size_t` variable `v`. -/
def store_size_t (pf : Platform) (mem : Memory) (addr v : Nat) : Memory :=
  fun a =>
    if addr ≤ a ∧ a < addr + pf.sizeof_size_t then v / 256 ^ (a - addr) % 256
    else mem a

/-- The call `memcpy(&v, addr, sizeof(size_t))`: the value `v` receives. -/
def load_size_t (pf : Platform) (mem : Memory) (addr : Nat) : Nat :=
  le_decode (fun i => mem (addr + i)) pf.sizeof_size_t

/-- A sum of a pointer (or `uintptr_t`) and an offset: it wraps at the width
of a pointer. -/
def ptr_add (pf : Platform) (p n : Nat) : Nat := (p + n) % pf.size_t_card

/-- A difference of a pointer (or `uintptr_t`) and an offset of at most
`256 ^ sizeof(size_t)`: it wraps at the width of a pointer. -/
def ptr_sub (pf : Platform) (p n : Nat) : Nat :=
  (p + pf.size_t_card - n) % pf.size_t_card

/-- The condition of the macro `BOUNDS_CHECK`, `allocator->head + size >
allocator->end` with its wrapping sum: when it holds the enclosing function
returns `NULL`. -/
def BOUNDS_CHECK (pf : Platform) (allocator : lin_alloc_t) (size : Nat) : Bool :=
  decide (ptr_add pf allocator.head size > allocator.end_)

/-- Source: `lin_alloc_realign`. -/
def lin_alloc_realign (pf : Platform) (allocator : lin_alloc_t) (alignment : Nat) :
    lin_alloc_t :=
  let rem := allocator.head % alignment
  if rem ≠ 0 then { allocator with head := ptr_add pf allocator.head rem } else allocator

/-- Source: `lin_alloc_init`; `base` is the address libc `malloc` returned. -/
def lin_alloc_init (pf : Platform) (base size : Nat) (mem : Memory) : State :=
  { allocator := { buf := base, head := base, end_ := ptr_add pf base size }
    mem := memset mem base 0 size }

/-- Source: `lin_alloc_destroy`. -/
def lin_alloc_destroy (s : State) : State :=
  { s with allocator := { buf := 0, head := 0, end_ := 0 } }

/-- Source: `lin_alloc_malloc`.  Returns the pointer and the state left behind. -/
def lin_alloc_malloc (pf : Platform) (size : Nat) (s : State) : Nat × State :=
  if size = 0 then (NULL, s)
  else
    let a1 := lin_alloc_realign pf s.allocator pf.sizeof_max_align_t
    if BOUNDS_CHECK pf a1 pf.sizeof_size_t then (NULL, { allocator := a1, mem := s.mem })
    else
      let mem1 := store_size_t pf s.mem a1.head size
      let a2 := { a1 with head := ptr_add pf a1.head pf.sizeof_size_t }
      if BOUNDS_CHECK pf a2 size then (NULL, { allocator := a2, mem := mem1 })
      else
        let dst := a2.head
        (dst, { allocator := { a2 with head := ptr_add pf a2.head size }, mem := mem1 })

/-- The value `lin_alloc_realloc` reads into `original_size`, from the address
`(uintptr_t)ptr - sizeof(size_t)`. -/
def original_size (pf : Platform) (mem : Memory) (ptr : Nat) : Nat :=
  load_size_t pf mem (ptr_sub pf ptr pf.sizeof_size_t)

/-- Source: `lin_alloc_realloc`. -/
def lin_alloc_realloc (pf : Platform) (ptr size : Nat) (s : State) : Nat × State :=
  if size = 0 then (NULL, s)
  else if ptr = NULL then lin_alloc_malloc pf size s
  else
    let osz := original_size pf s.mem ptr
    if osz ≥ size then (ptr, s)
    else if ptr_add pf ptr osz = s.allocator.head then
      if BOUNDS_CHECK pf s.allocator (size - osz) then (NULL, s)
      else
        (ptr, { s with allocator :=
                  { s.allocator with head := ptr_add pf s.allocator.head (size - osz) } })
    else
      let r := lin_alloc_malloc pf size s
      (r.1, { r.2 with mem := memcpy r.2.mem r.1 ptr osz })

/-- Source: `lin_alloc_calloc`; the product is a `size_t` product. -/
def lin_alloc_calloc (pf : Platform) (count size : Nat) (s : State) : Nat × State :=
  let n := size * count % pf.size_t_card
  let r := lin_alloc_malloc pf n s
  (r.1, { r.2 with mem := memset r.2.mem r.1 0 n })

/-- Source: `lin_alloc_aligned_malloc`. -/
def lin_alloc_aligned_malloc (pf : Platform) (alignment size : Nat) (s : State) :
    Nat × State :=
  if BOUNDS_CHECK pf s.allocator pf.sizeof_size_t then (NULL, s)
  else
    let a1 := { s.allocator with head := ptr_add pf s.allocator.head pf.sizeof_size_t }
    let a2 := lin_alloc_realign pf a1 alignment
    if BOUNDS_CHECK pf a2 size then (NULL, { allocator := a2, mem := s.mem })
    else
      let dst := a2.head
      let mem1 := store_size_t pf s.mem (ptr_sub pf a2.head pf.sizeof_size_t) size
      (dst, { allocator := { a2 with head := ptr_add pf a2.head size }, mem := mem1 })

/-- The arena invariant of the data model: `buf ≤ head ≤ end`. -/
def ArenaInv (a : lin_alloc_t) : Prop := a.buf ≤ a.head ∧ a.head ≤ a.end_

instance (a : lin_alloc_t) : Decidable (ArenaInv a) := by
  unfold ArenaInv; infer_instance

/-- The three fields of the arena record hold pointer values. -/
def PointerValued (pf : Platform) (a : lin_alloc_t) : Prop :=
  a.buf < pf.size_t_card ∧ a.head < pf.size_t_card ∧ a.end_ < pf.size_t_card

instance (pf : Platform) (a : lin_alloc_t) : Decidable (PointerValued pf a) := by
  unfold PointerValued; infer_instance

/-- A fresh 128-byte arena at address 32 over memory holding `0xAA` everywhere. -/
def arena128 : State := lin_alloc_init lp64 32 128 (fun _ => 170)

/-- A fresh 16-byte arena at address 32 over memory holding `0xAA` everywhere. -/
def arena16 : State := lin_alloc_init lp64 32 16 (fun _ => 170)

/-- A fresh 48-byte arena at address 32 over memory holding `0xAA` everywhere. -/
def arena48 : State := lin_alloc_init lp64 32 48 (fun _ => 170)

/-- The largest `size_t` value. -/
def SIZE_MAX (pf : Platform) : Nat := pf.size_t_card - 1

/-- The state of `arena128` after `lin_alloc_malloc(8)`, which returns 40. -/
def arena128_one : State := (lin_alloc_malloc lp64 8 arena128).2

/-- The state of `arena16` after one successful `lin_alloc_malloc(1)`. -/
def arena16_used : State := (lin_alloc_malloc lp64 1 arena16).2

/-- The state of `arena128` after one successful `lin_alloc_malloc(1)`. -/
def arena128_used : State := (lin_alloc_malloc lp64 1 arena128).2

/-- The pointer `ptr` is a live allocation of the arena: its size header lies
in the buffer and the payload the header announces ends at or before `head`.
A pointer returned by an allocation whose request fits satisfies this, and
keeps satisfying it across later calls whose requests fit. -/
def Allocated (pf : Platform) (s : State) (ptr : Nat) : Prop :=
  s.allocator.buf + pf.sizeof_size_t ≤ ptr ∧
    ptr + original_size pf s.mem ptr ≤ s.allocator.head

instance (pf : Platform) (s : State) (ptr : Nat) : Decidable (Allocated pf s ptr) := by
  unfold Allocated; infer_instance

/-- A call that reaches the platform allocator. -/
inductive PlatformCall where
  | malloc (size : Nat)
  | realloc (ptr size : Nat)
  | calloc (count size : Nat)
  | free (ptr : Nat)
  | posix_memalign (alignment size : Nat)
  | msvc_aligned_malloc (size alignment : Nat)
  | msvc_aligned_free (memblock : Nat)
  | mingw_aligned_malloc (size alignment : Nat)
  | mingw_aligned_free (memblock : Nat)
deriving DecidableEq

/-- The branch of the `#ifdef` chain in `roaring_bitmap_aligned_malloc` and
`roaring_bitmap_aligned_free` the build selects. -/
inductive Target where
  | msvc
  | mingw
  | posix
deriving DecidableEq

/-- The platform allocator as the registry sees it: the calls it has received,
in order, and the value it returns for a call after a given history (for
`posix_memalign` the pointer it stores, `NULL` standing for a non-zero status). -/
structure World where
  calls : List PlatformCall
  answer : List PlatformCall → PlatformCall → Nat

/-- Issue one call to the platform allocator. -/
def World.call (w : World) (c : PlatformCall) : Nat × World :=
  (w.answer w.calls c, { w with calls := w.calls ++ [c] })

/-- The hook record `roaring_memory_t`, with the fields the initialiser of
`global_memory_hook` names.  A hook function acts on a world of type `σ`. -/
structure roaring_memory_t (σ : Type) where
  context : Nat
  malloc : Nat → Nat → σ → Nat × σ
  realloc : Nat → Nat → Nat → σ → Nat × σ
  calloc : Nat → Nat → Nat → σ → Nat × σ
  free : Nat → Nat → σ → σ
  aligned_malloc : Nat → Nat → Nat → σ → Nat × σ
  aligned_free : Nat → Nat → σ → σ

/-- Source: `roaring_bitmap_aligned_malloc`. -/
def roaring_bitmap_aligned_malloc (t : Target) (alignment size : Nat) (w : World) :
    Nat × World :=
  match t with
  | .msvc => w.call (.msvc_aligned_malloc size alignment)
  | .mingw => w.call (.mingw_aligned_malloc size alignment)
  | .posix => w.call (.posix_memalign alignment size)

/-- Source: `roaring_bitmap_aligned_free`. -/
def roaring_bitmap_aligned_free (t : Target) (memblock : Nat) (w : World) : World :=
  match t with
  | .msvc => (w.call (.msvc_aligned_free memblock)).2
  | .mingw => (w.call (.mingw_aligned_free memblock)).2
  | .posix => (w.call (.free memblock)).2

/-- Source: `default_malloc`. -/
def default_malloc (size _context : Nat) (w : World) : Nat × World :=
  w.call (.malloc size)

/-- Source: `default_realloc`. -/
def default_realloc (ptr size _context : Nat) (w : World) : Nat × World :=
  w.call (.realloc ptr size)

/-- Source: `default_calloc`. -/
def default_calloc (count size _context : Nat) (w : World) : Nat × World :=
  w.call (.calloc count size)

/-- Source: `default_free`. -/
def default_free (ptr _context : Nat) (w : World) : World :=
  (w.call (.free ptr)).2

/-- Source: `default_aligned_malloc`. -/
def default_aligned_malloc (t : Target) (alignment size _context : Nat) (w : World) :
    Nat × World :=
  roaring_bitmap_aligned_malloc t alignment size w

/-- Source: `default_aligned_free`: the block handed on is `context`. -/
def default_aligned_free (t : Target) (_ptr context : Nat) (w : World) : World :=
  roaring_bitmap_aligned_free t context w

/-- Source: the initialiser of `global_memory_hook`. -/
def default_memory_hook (t : Target) : roaring_memory_t World :=
  { context := 0
    malloc := default_malloc
    realloc := default_realloc
    calloc := default_calloc
    free := default_free
    aligned_malloc := default_aligned_malloc t
    aligned_free := default_aligned_free t }

/-- The process state the registry works on: the variable `global_memory_hook`
and the world its hook functions act on. -/
structure Process (σ : Type) where
  global_memory_hook : roaring_memory_t σ
  world : σ

/-- Source: `roaring_init_memory_hook`. -/
def roaring_init_memory_hook {σ : Type} (memory_hook : roaring_memory_t σ) (g : Process σ) :
    Process σ :=
  { g with global_memory_hook := memory_hook }

/-- Source: `roaring_malloc`. -/
def roaring_malloc {σ : Type} (n : Nat) (g : Process σ) : Nat × Process σ :=
  let r := g.global_memory_hook.malloc n g.global_memory_hook.context g.world
  (r.1, { g with world := r.2 })

/-- Source: `roaring_realloc`. -/
def roaring_realloc {σ : Type} (p new_sz : Nat) (g : Process σ) : Nat × Process σ :=
  let r := g.global_memory_hook.realloc p new_sz g.global_memory_hook.context g.world
  (r.1, { g with world := r.2 })

/-- Source: `roaring_calloc`. -/
def roaring_calloc {σ : Type} (n_elements element_size : Nat) (g : Process σ) :
    Nat × Process σ :=
  let r := g.global_memory_hook.calloc n_elements element_size
    g.global_memory_hook.context g.world
  (r.1, { g with world := r.2 })

/-- Source: `roaring_free`. -/
def roaring_free {σ : Type} (p : Nat) (g : Process σ) : Process σ :=
  { g with world := g.global_memory_hook.free p g.global_memory_hook.context g.world }

/-- Source: `roaring_aligned_malloc`. -/
def roaring_aligned_malloc {σ : Type} (alignment size : Nat) (g : Process σ) :
    Nat × Process σ :=
  let r := g.global_memory_hook.aligned_malloc alignment size
    g.global_memory_hook.context g.world
  (r.1, { g with world := r.2 })

/-- Source: `roaring_aligned_free`. -/
def roaring_aligned_free {σ : Type} (p : Nat) (g : Process σ) : Process σ :=
  { g with world := g.global_memory_hook.aligned_free p g.global_memory_hook.context g.world }

/-- A process in which `roaring_init_memory_hook` was never called. -/
def default_process (t : Target) (w : World) : Process World :=
  { global_memory_hook := default_memory_hook t, world := w }

/-- A platform allocator that has received no call yet and answers every
allocating call with the address 4096. -/
def fresh_world : World := { calls := [], answer := fun _ _ => 4096 }

/-- A call received by a recording hook, with the context it was given. -/
inductive HookCall where
  | malloc (n context : Nat)
  | realloc (p n context : Nat)
  | calloc (count size context : Nat)
  | free (p context : Nat)
  | aligned_malloc (alignment size context : Nat)
  | aligned_free (p context : Nat)
deriving DecidableEq

/-- A hook whose world is the list of the calls it has received; every
allocating function answers `ret`. -/
def recording_hook (context ret : Nat) : roaring_memory_t (List HookCall) :=
  { context := context
    malloc := fun n ctx w => (ret, w ++ [HookCall.malloc n ctx])
    realloc := fun p n ctx w => (ret, w ++ [HookCall.realloc p n ctx])
    calloc := fun count size ctx w => (ret, w ++ [HookCall.calloc count size ctx])
    free := fun p ctx w => w ++ [HookCall.free p ctx]
    aligned_malloc := fun a size ctx w => (ret, w ++ [HookCall.aligned_malloc a size ctx])
    aligned_free := fun p ctx w => w ++ [HookCall.aligned_free p ctx] }

/-! ### The container directory (`src/include/roaring/roaring_array.h`) -/

/-- Source: the constant `MAX_CONTAINERS`. -/
def MAX_CONTAINERS : Nat := 65536

/-- The directory record `roaring_array_t`.  The three arrays are maps from a
slot index to the element stored there: a container pointer, a `uint16_t` key,
a `uint8_t` typecode. -/
structure roaring_array_t where
  size : Int
  allocation_size : Int
  containers : Nat → Nat
  keys : Nat → Nat
  typecodes : Nat → Nat

/-- Source: `ra_get_index`.  The search `binarySearch` of `array_util.h` is
not part of this source and is taken as a parameter; `x` is a `uint16_t`. -/
def ra_get_index (binarySearch : (Nat → Nat) → Int → Nat → Int)
    (ra : roaring_array_t) (x : Nat) : Int :=
  if ra.size = 0 ∨ ra.keys (ra.size - 1).toNat = x then ra.size - 1
  else binarySearch ra.keys ra.size x

/-- Source: `ra_get_container_at_index`.  The parameter `i` has type
`uint16_t`, so an argument is reduced modulo 65536 on entry.  Returns the
container and the value written to `*typecode`. -/
def ra_get_container_at_index (ra : roaring_array_t) (i : Nat) : Nat × Nat :=
  (ra.containers (i % 65536), ra.typecodes (i % 65536))

/-- Source: `ra_set_container_at_index`; `none` is a failed `assert`.  The
index is an `int32_t`; the stores are meaningful for `0 ≤ i`. -/
def ra_set_container_at_index (ra : roaring_array_t) (i : Int) (c typecode : Nat) :
    Option roaring_array_t :=
  if i < ra.size then
    some { ra with
      containers := Function.update ra.containers i.toNat c
      typecodes := Function.update ra.typecodes i.toNat typecode }
  else none

/-- Source: `ra_replace_key_and_container_at_index`; `none` is a failed
`assert`. -/
def ra_replace_key_and_container_at_index (ra : roaring_array_t) (i : Int)
    (key c typecode : Nat) : Option roaring_array_t :=
  if i < ra.size then
    some { ra with
      keys := Function.update ra.keys i.toNat key
      containers := Function.update ra.containers i.toNat c
      typecodes := Function.update ra.typecodes i.toNat typecode }
  else none

/-- Source: `ra_unshare_container_at_index`; `none` is a failed `assert`.
The helper `get_writable_copy_if_shared` of `containers.h` is not part of this
source and is taken as a parameter: from a container and its typecode it gives
the container to store and the typecode it leaves in `*typecode`.  The
parameter `i` has type `uint16_t`. -/
def ra_unshare_container_at_index (get_writable_copy_if_shared : Nat → Nat → Nat × Nat)
    (ra : roaring_array_t) (i : Nat) : Option roaring_array_t :=
  if ((i % 65536 : Nat) : Int) < ra.size then
    some { ra with
      containers := Function.update ra.containers (i % 65536)
        (get_writable_copy_if_shared (ra.containers (i % 65536))
          (ra.typecodes (i % 65536))).1
      typecodes := Function.update ra.typecodes (i % 65536)
        (get_writable_copy_if_shared (ra.containers (i % 65536))
          (ra.typecodes (i % 65536))).2 }
  else none

/-- The sortedness invariant of the data model: `keys[i] < keys[i+1]` for
every pair of neighbouring occupied slots. -/
def keys_strictly_increasing (ra : roaring_array_t) : Prop :=
  ∀ i : Nat, (i : Int) + 1 < ra.size → ra.keys i < ra.keys (i + 1)

/-- A search meeting the contract assumed of `binarySearch`: the first index
below `n` that holds `x`, or `-1`. -/
def reference_search (keys : Nat → Nat) (n : Int) (x : Nat) : Int :=
  match (List.range n.toNat).find? (fun i => decide (keys i = x)) with
  | some i => (i : Int)
  | none => -1

/-- A directory with the three keys 1, 5, 9 in slots 0, 1, 2 of four. -/
def ra_159 : roaring_array_t :=
  { size := 3
    allocation_size := 4
    containers := fun i => 1000 + 16 * i
    keys := fun i => [1, 5, 9].getD i 0
    typecodes := fun _ => 2 }

/-- A stand-in for `get_writable_copy_if_shared`: a container with the shared
typecode 4 is replaced by a copy 8 bytes further on with typecode 2. -/
def sample_unshare (c typecode : Nat) : Nat × Nat :=
  if typecode = 4 then (c + 8, 2) else (c, typecode)

/-! ## Wrapping pointer arithmetic -/

theorem size_t_card_pos (pf : Platform) : 0 < pf.size_t_card := by
  unfold Platform.size_t_card
  positivity

theorem sizeof_size_t_lt_card (pf : Platform) : pf.sizeof_size_t < pf.size_t_card := by
  unfold Platform.size_t_card
  exact Nat.lt_pow_self (by norm_num) _

theorem ptr_add_lt (pf : Platform) (p n : Nat) : ptr_add pf p n < pf.size_t_card :=
  Nat.mod_lt _ (size_t_card_pos pf)

/-- A sum that stays below the pointer width is the plain sum. -/
theorem ptr_add_of_lt (pf : Platform) (p n : Nat) (h : p + n < pf.size_t_card) :
    ptr_add pf p n = p + n :=
  Nat.mod_eq_of_lt h

/-- A difference that does not go below zero is the plain difference. -/
theorem ptr_sub_of_le (pf : Platform) (p n : Nat) (hn : n ≤ p) (hp : p < pf.size_t_card) :
    ptr_sub pf p n = p - n := by
  unfold ptr_sub
  have e : p + pf.size_t_card - n = p - n + pf.size_t_card := by omega
  rw [e, Nat.add_mod_right, Nat.mod_eq_of_lt (by omega)]

/-- Stepping back over the header from the payload gives the header address,
also when the step forward wrapped. -/
theorem ptr_sub_ptr_add (pf : Platform) (h : Nat) (hh : h < pf.size_t_card) :
    ptr_sub pf (ptr_add pf h pf.sizeof_size_t) pf.sizeof_size_t = h := by
  have hS := sizeof_size_t_lt_card pf
  unfold ptr_sub ptr_add
  by_cases hlt : h + pf.sizeof_size_t < pf.size_t_card
  · rw [Nat.mod_eq_of_lt hlt]
    have e : h + pf.sizeof_size_t + pf.size_t_card - pf.sizeof_size_t
        = h + pf.size_t_card := by omega
    rw [e, Nat.add_mod_right, Nat.mod_eq_of_lt hh]
  · have e1 : (h + pf.sizeof_size_t) % pf.size_t_card
        = h + pf.sizeof_size_t - pf.size_t_card := by
      rw [Nat.mod_eq_sub_mod (by omega), Nat.mod_eq_of_lt (by omega)]
    rw [e1]
    have e2 : h + pf.sizeof_size_t - pf.size_t_card + pf.size_t_card - pf.sizeof_size_t
        = h := by omega
    rw [e2, Nat.mod_eq_of_lt hh]

/-! ## The re-alignment step -/

theorem lin_alloc_realign_eq (pf : Platform) (a : lin_alloc_t) (k : Nat) :
    lin_alloc_realign pf a k =
      { buf := a.buf
        head := if a.head % k = 0 then a.head else ptr_add pf a.head (a.head % k)
        end_ := a.end_ } := by
  unfold lin_alloc_realign
  by_cases h : a.head % k = 0 <;> simp [h]

/-- The head after re-alignment is a pointer value when the head before is. -/
theorem lin_alloc_realign_head_lt (pf : Platform) (a : lin_alloc_t) (k : Nat)
    (h : a.head < pf.size_t_card) : (lin_alloc_realign pf a k).head < pf.size_t_card := by
  rw [lin_alloc_realign_eq]
  by_cases hr : a.head % k = 0
  · simpa [hr] using h
  · simpa [hr] using ptr_add_lt pf a.head (a.head % k)

/-- When the sum does not wrap, re-alignment advances `head` by `head %
alignment`. -/
theorem lin_alloc_realign_of_lt (pf : Platform) (a : lin_alloc_t) (k : Nat)
    (h : a.head + a.head % k < pf.size_t_card) :
    lin_alloc_realign pf a k =
      { buf := a.buf, head := a.head + a.head % k, end_ := a.end_ } := by
  rw [lin_alloc_realign_eq]
  by_cases hr : a.head % k = 0
  · simp [hr]
  · simp [hr, ptr_add_of_lt pf _ _ h]

/-- The allocator calls keep the three fields pointer values. -/
theorem PointerValued_preserved (pf : Platform) (s : State)
    (h : PointerValued pf s.allocator) :
    (∀ n, PointerValued pf (lin_alloc_malloc pf n s).2.allocator) ∧
    (∀ a n, PointerValued pf (lin_alloc_aligned_malloc pf a n s).2.allocator) ∧
    (∀ count size, PointerValued pf (lin_alloc_calloc pf count size s).2.allocator) ∧
    (∀ ptr n, PointerValued pf (lin_alloc_realloc pf ptr n s).2.allocator) := by
  obtain ⟨hb, hh, he⟩ := h
  have hmalloc : ∀ n, PointerValued pf (lin_alloc_malloc pf n s).2.allocator := by
    intro n
    simp only [lin_alloc_malloc, lin_alloc_realign_eq, PointerValued]
    split_ifs <;>
      exact ⟨hb, by first | exact hh | exact ptr_add_lt pf _ _, he⟩
  refine ⟨hmalloc, ?_, fun count size => hmalloc _, ?_⟩
  · intro a n
    simp only [lin_alloc_aligned_malloc, lin_alloc_realign_eq, PointerValued]
    split_ifs <;>
      exact ⟨hb, by first | exact hh | exact ptr_add_lt pf _ _, he⟩
  · intro ptr n
    have hm := hmalloc n
    simp only [PointerValued] at hm
    simp only [lin_alloc_realloc, PointerValued]
    split_ifs <;>
      first
      | exact hm
      | exact ⟨hb, by first | exact hh | exact ptr_add_lt pf _ _, he⟩

/-! ## What a successful allocation did -/

/-- A successful `lin_alloc_malloc` stored the size at the re-aligned head and
returned the address one header further on. -/
theorem lin_alloc_malloc_success (pf : Platform) (size : Nat) (s : State)
    (h : (lin_alloc_malloc pf size s).1 ≠ NULL) :
    size ≠ 0 ∧
    (lin_alloc_malloc pf size s).1 =
      ptr_add pf (lin_alloc_realign pf s.allocator pf.sizeof_max_align_t).head
        pf.sizeof_size_t ∧
    (lin_alloc_malloc pf size s).2.mem =
      store_size_t pf s.mem
        (lin_alloc_realign pf s.allocator pf.sizeof_max_align_t).head size := by
  revert h
  unfold lin_alloc_malloc
  by_cases h0 : size = 0
  · simp [h0, NULL]
  · rw [if_neg h0]
    by_cases h1 : BOUNDS_CHECK pf (lin_alloc_realign pf s.allocator pf.sizeof_max_align_t)
        pf.sizeof_size_t = true
    · simp [h1, NULL]
    · simp only [h1, Bool.false_eq_true, if_false]
      by_cases h2 : BOUNDS_CHECK pf
          { (lin_alloc_realign pf s.allocator pf.sizeof_max_align_t) with
            head := ptr_add pf (lin_alloc_realign pf s.allocator pf.sizeof_max_align_t).head
              pf.sizeof_size_t } size = true
      · simp [h2, NULL]
      · simp only [h2, Bool.false_eq_true, if_false]
        intro _
        exact ⟨h0, trivial, trivial⟩

/-- A successful `lin_alloc_aligned_malloc` stored the size one header before
the address it returned. -/
theorem lin_alloc_aligned_malloc_success (pf : Platform) (alignment size : Nat) (s : State)
    (h : (lin_alloc_aligned_malloc pf alignment size s).1 ≠ NULL) :
    (lin_alloc_aligned_malloc pf alignment size s).2.mem =
      store_size_t pf s.mem
        (ptr_sub pf (lin_alloc_aligned_malloc pf alignment size s).1 pf.sizeof_size_t)
        size := by
  revert h
  unfold lin_alloc_aligned_malloc
  by_cases h1 : BOUNDS_CHECK pf s.allocator pf.sizeof_size_t = true
  · simp [h1, NULL]
  · simp only [h1, Bool.false_eq_true, if_false]
    by_cases h2 : BOUNDS_CHECK pf
        (lin_alloc_realign pf
          { s.allocator with head := ptr_add pf s.allocator.head pf.sizeof_size_t }
          alignment) size = true
    · simp [h2, NULL]
    · simp only [h2, Bool.false_eq_true, if_false]
      intro _
      trivial

/-- A request that fits after the re-aligned head, in an arena whose `end` is a
pointer value: `lin_alloc_malloc` places the header at `head + head %
sizeof(max_align_t)` and the payload right after it. -/
theorem lin_alloc_malloc_fits (pf : Platform) (size : Nat) (s : State)
    (hend : s.allocator.end_ < pf.size_t_card) (h0 : size ≠ 0)
    (hfit : s.allocator.head + s.allocator.head % pf.sizeof_max_align_t
      + pf.sizeof_size_t + size ≤ s.allocator.end_) :
    lin_alloc_malloc pf size s =
      (s.allocator.head + s.allocator.head % pf.sizeof_max_align_t + pf.sizeof_size_t,
        { allocator :=
            { buf := s.allocator.buf
              head := s.allocator.head + s.allocator.head % pf.sizeof_max_align_t
                + pf.sizeof_size_t + size
              end_ := s.allocator.end_ }
          mem := store_size_t pf s.mem
            (s.allocator.head + s.allocator.head % pf.sizeof_max_align_t) size }) := by
  have hr := lin_alloc_realign_of_lt pf s.allocator pf.sizeof_max_align_t (by omega)
  have e2 := ptr_add_of_lt pf
    (s.allocator.head + s.allocator.head % pf.sizeof_max_align_t) pf.sizeof_size_t (by omega)
  have e3 := ptr_add_of_lt pf
    (s.allocator.head + s.allocator.head % pf.sizeof_max_align_t + pf.sizeof_size_t) size
    (by omega)
  have c1 : ¬ (s.allocator.end_ < s.allocator.head
      + s.allocator.head % pf.sizeof_max_align_t + pf.sizeof_size_t) := by omega
  have c2 : ¬ (s.allocator.end_ < s.allocator.head
      + s.allocator.head % pf.sizeof_max_align_t + pf.sizeof_size_t + size) := by omega
  unfold lin_alloc_malloc
  rw [if_neg h0]
  simp only [hr, BOUNDS_CHECK, e2, e3, gt_iff_lt, c1, c2, decide_False, Bool.false_eq_true,
    if_false]

/-- A request that fits after the reserved header and the re-aligned head, in
an arena whose `end` is a pointer value: what `lin_alloc_aligned_malloc` does. -/
theorem lin_alloc_aligned_malloc_fits (pf : Platform) (alignment size : Nat) (s : State)
    (hend : s.allocator.end_ < pf.size_t_card)
    (hfit : s.allocator.head + pf.sizeof_size_t
      + (s.allocator.head + pf.sizeof_size_t) % alignment + size ≤ s.allocator.end_) :
    lin_alloc_aligned_malloc pf alignment size s =
      (s.allocator.head + pf.sizeof_size_t
          + (s.allocator.head + pf.sizeof_size_t) % alignment,
        { allocator :=
            { buf := s.allocator.buf
              head := s.allocator.head + pf.sizeof_size_t
                + (s.allocator.head + pf.sizeof_size_t) % alignment + size
              end_ := s.allocator.end_ }
          mem := store_size_t pf s.mem
            (s.allocator.head + pf.sizeof_size_t
              + (s.allocator.head + pf.sizeof_size_t) % alignment - pf.sizeof_size_t)
            size }) := by
  have e1 := ptr_add_of_lt pf s.allocator.head pf.sizeof_size_t (by omega)
  have hr := lin_alloc_realign_of_lt pf
    { buf := s.allocator.buf, head := s.allocator.head + pf.sizeof_size_t,
      end_ := s.allocator.end_ } alignment (by simp only; omega)
  have e3 := ptr_add_of_lt pf
    (s.allocator.head + pf.sizeof_size_t
      + (s.allocator.head + pf.sizeof_size_t) % alignment) size (by omega)
  have e4 := ptr_sub_of_le pf
    (s.allocator.head + pf.sizeof_size_t
      + (s.allocator.head + pf.sizeof_size_t) % alignment) pf.sizeof_size_t
    (by omega) (by omega)
  have c1 : ¬ (s.allocator.end_ < s.allocator.head + pf.sizeof_size_t) := by omega
  have c2 : ¬ (s.allocator.end_ < s.allocator.head + pf.sizeof_size_t
      + (s.allocator.head + pf.sizeof_size_t) % alignment + size) := by omega
  unfold lin_alloc_aligned_malloc
  simp only [BOUNDS_CHECK, e1, gt_iff_lt, c1, decide_False, Bool.false_eq_true, if_false, hr,
    e3, e4, c2]

/-! ## Size headers in memory -/

theorem le_decode_congr (f g : Nat → Nat) (k : Nat) (h : ∀ i, i < k → f i = g i) :
    le_decode f k = le_decode g k := by
  induction k generalizing f g with
  | zero => rfl
  | succ k ih =>
    simp only [le_decode]
    rw [h 0 (Nat.succ_pos k), ih (fun i => f (i + 1)) (fun i => g (i + 1))
      (fun i hi => h (i + 1) (Nat.succ_lt_succ hi))]

theorem le_decode_digits (v k : Nat) :
    le_decode (fun i => v / 256 ^ i % 256) k = v % 256 ^ k := by
  induction k generalizing v with
  | zero => simp [le_decode, Nat.mod_one]
  | succ k ih =>
    simp only [le_decode, pow_zero, Nat.div_one]
    have hshift : (fun i => v / 256 ^ (i + 1) % 256) = fun i => v / 256 / 256 ^ i % 256 := by
      funext i
      rw [pow_succ, Nat.mul_comm, Nat.div_div_eq_div_mul]
    rw [hshift, ih (v / 256), pow_succ', Nat.mod_mul]

/-- Reading a size header back from where it was stored gives the stored value
reduced to the width of `size_t`. -/
theorem load_store_size_t (pf : Platform) (mem : Memory) (addr v : Nat) :
    load_size_t pf (store_size_t pf mem addr v) addr = v % pf.size_t_card := by
  unfold load_size_t Platform.size_t_card
  rw [← le_decode_digits v pf.sizeof_size_t]
  apply le_decode_congr
  intro i hi
  simp [store_size_t, hi]

/-- A load only depends on the `sizeof(size_t)` bytes it reads. -/
theorem load_size_t_congr (pf : Platform) (m1 m2 : Memory) (addr : Nat)
    (h : ∀ a, addr ≤ a → a < addr + pf.sizeof_size_t → m1 a = m2 a) :
    load_size_t pf m1 addr = load_size_t pf m2 addr := by
  unfold load_size_t
  apply le_decode_congr
  intro i hi
  exact h (addr + i) (Nat.le_add_right _ _) (Nat.add_lt_add_left hi _)

theorem original_size_store_above (pf : Platform) (mem : Memory) (addr v q : Nat)
    (hq : pf.sizeof_size_t ≤ q) (hqM : q < pf.size_t_card) (h : q ≤ addr) :
    original_size pf (store_size_t pf mem addr v) q = original_size pf mem q := by
  unfold original_size
  rw [ptr_sub_of_le pf q _ hq hqM]
  apply load_size_t_congr
  intro a _ ha
  have hlt : ¬ (addr ≤ a ∧ a < addr + pf.sizeof_size_t) := by omega
  simp [store_size_t, hlt]

theorem original_size_memset_above (pf : Platform) (mem : Memory) (dst c n q : Nat)
    (hq : pf.sizeof_size_t ≤ q) (hqM : q < pf.size_t_card) (h : q ≤ dst) :
    original_size pf (memset mem dst c n) q = original_size pf mem q := by
  unfold original_size
  rw [ptr_sub_of_le pf q _ hq hqM]
  apply load_size_t_congr
  intro a _ ha
  have hlt : ¬ (dst ≤ a ∧ a < dst + n) := by omega
  simp [memset, hlt]

theorem original_size_memcpy_above (pf : Platform) (mem : Memory) (dst src n q : Nat)
    (hq : pf.sizeof_size_t ≤ q) (hqM : q < pf.size_t_card) (h : q ≤ dst) :
    original_size pf (memcpy mem dst src n) q = original_size pf mem q := by
  unfold original_size
  rw [ptr_sub_of_le pf q _ hq hqM]
  apply load_size_t_congr
  intro a _ ha
  have hlt : ¬ (dst ≤ a ∧ a < dst + n) := by omega
  simp [memcpy, hlt]

/-- The header one reads back after an allocation that fits. -/
theorem original_size_after_store (pf : Platform) (mem : Memory) (h v : Nat)
    (hh : h + pf.sizeof_size_t < pf.size_t_card) :
    original_size pf (store_size_t pf mem h v) (h + pf.sizeof_size_t)
      = v % pf.size_t_card := by
  unfold original_size
  rw [ptr_sub_of_le pf _ _ (Nat.le_add_left _ _) hh, Nat.add_sub_cancel, load_store_size_t]

/-! ## Live allocations -/

/-- A pointer returned by a `lin_alloc_malloc` whose request fits is a live
allocation of the state the call leaves. -/
theorem Allocated_of_malloc (pf : Platform) (s : State) (n : Nat)
    (hinv : ArenaInv s.allocator) (hty : PointerValued pf s.allocator)
    (hn : n < pf.size_t_card) (h0 : n ≠ 0)
    (hfit : s.allocator.head + s.allocator.head % pf.sizeof_max_align_t
      + pf.sizeof_size_t + n ≤ s.allocator.end_) :
    Allocated pf (lin_alloc_malloc pf n s).2 (lin_alloc_malloc pf n s).1 := by
  rw [lin_alloc_malloc_fits pf n s hty.2.2 h0 hfit]
  have hend := hty.2.2
  unfold Allocated
  simp only
  rw [original_size_after_store pf _ _ _ (by omega), Nat.mod_eq_of_lt hn]
  have := hinv.1
  omega

/-- A pointer returned by a `lin_alloc_aligned_malloc` whose request fits is a
live allocation of the state the call leaves. -/
theorem Allocated_of_aligned_malloc (pf : Platform) (s : State) (a n : Nat)
    (hinv : ArenaInv s.allocator) (hty : PointerValued pf s.allocator)
    (hn : n < pf.size_t_card)
    (hfit : s.allocator.head + pf.sizeof_size_t
      + (s.allocator.head + pf.sizeof_size_t) % a + n ≤ s.allocator.end_) :
    Allocated pf (lin_alloc_aligned_malloc pf a n s).2
      (lin_alloc_aligned_malloc pf a n s).1 := by
  rw [lin_alloc_aligned_malloc_fits pf a n s hty.2.2 hfit]
  have hend := hty.2.2
  unfold Allocated original_size
  simp only
  rw [ptr_sub_of_le pf _ _ (by omega) (by omega), load_store_size_t, Nat.mod_eq_of_lt hn]
  have := hinv.1
  omega

/-- A live allocation stays live across a later `lin_alloc_malloc`,
`lin_alloc_calloc`, `lin_alloc_aligned_malloc` or `lin_alloc_realloc` whose
request fits as a fresh allocation: its header is not overwritten and `head`
does not move back. -/
theorem Allocated_preserved (pf : Platform) (s : State) (q : Nat)
    (hty : PointerValued pf s.allocator) (hq : Allocated pf s q) :
    (∀ n, n ≠ 0 →
      s.allocator.head + s.allocator.head % pf.sizeof_max_align_t
        + pf.sizeof_size_t + n ≤ s.allocator.end_ →
      Allocated pf (lin_alloc_malloc pf n s).2 q) ∧
    (∀ count size, size * count % pf.size_t_card ≠ 0 →
      s.allocator.head + s.allocator.head % pf.sizeof_max_align_t
        + pf.sizeof_size_t + size * count % pf.size_t_card ≤ s.allocator.end_ →
      Allocated pf (lin_alloc_calloc pf count size s).2 q) ∧
    (∀ a n,
      s.allocator.head + pf.sizeof_size_t
        + (s.allocator.head + pf.sizeof_size_t) % a + n ≤ s.allocator.end_ →
      Allocated pf (lin_alloc_aligned_malloc pf a n s).2 q) ∧
    (∀ ptr n,
      s.allocator.head + s.allocator.head % pf.sizeof_max_align_t
        + pf.sizeof_size_t + n ≤ s.allocator.end_ →
      Allocated pf (lin_alloc_realloc pf ptr n s).2 q) := by
  obtain ⟨hlo, hhi⟩ := hq
  have hend := hty.2.2
  have hSq : pf.sizeof_size_t ≤ q := by omega
  have hqM : q < pf.size_t_card := by
    have := hty.2.1
    omega
  have hmalloc : ∀ n, n ≠ 0 →
      s.allocator.head + s.allocator.head % pf.sizeof_max_align_t
        + pf.sizeof_size_t + n ≤ s.allocator.end_ →
      Allocated pf (lin_alloc_malloc pf n s).2 q := by
    intro n h0 hfit
    rw [lin_alloc_malloc_fits pf n s hend h0 hfit]
    unfold Allocated
    simp only
    rw [original_size_store_above pf s.mem _ n q hSq hqM (by omega)]
    omega
  refine ⟨hmalloc, ?_, ?_, ?_⟩
  · intro count size h0 hfit
    obtain ⟨hb, hh⟩ := hmalloc _ h0 hfit
    unfold Allocated lin_alloc_calloc
    simp only
    rw [original_size_memset_above pf _ _ 0 _ q hSq hqM
      (by rw [lin_alloc_malloc_fits pf _ s hend h0 hfit]; simp only; omega)]
    exact ⟨hb, hh⟩
  · intro a n hfit
    rw [lin_alloc_aligned_malloc_fits pf a n s hend hfit]
    unfold Allocated
    simp only
    rw [original_size_store_above pf s.mem _ n q hSq hqM (by omega)]
    omega
  · intro ptr n hfit
    unfold lin_alloc_realloc
    by_cases h0 : n = 0
    · rw [if_pos h0]
      exact ⟨hlo, hhi⟩
    · rw [if_neg h0]
      by_cases hp0 : ptr = NULL
      · rw [if_pos hp0]
        exact hmalloc n h0 hfit
      · rw [if_neg hp0]
        by_cases h1 : original_size pf s.mem ptr ≥ n
        · simp only [h1, if_true]
          exact ⟨hlo, hhi⟩
        · simp only [h1, if_false]
          by_cases h2 : ptr_add pf ptr (original_size pf s.mem ptr) = s.allocator.head
          · have e : ptr_add pf s.allocator.head (n - original_size pf s.mem ptr)
                = s.allocator.head + (n - original_size pf s.mem ptr) :=
              ptr_add_of_lt pf _ _ (by omega)
            have c : ¬ (s.allocator.end_
                < s.allocator.head + (n - original_size pf s.mem ptr)) := by omega
            simp only [h2, if_true, BOUNDS_CHECK, e, gt_iff_lt, c, decide_False,
              Bool.false_eq_true, if_false]
            unfold Allocated
            simp only
            omega
          · simp only [h2, if_false]
            obtain ⟨hb, hh⟩ := hmalloc n h0 hfit
            unfold Allocated
            simp only
            rw [original_size_memcpy_above pf _ _ ptr _ q hSq hqM
              (by rw [lin_alloc_malloc_fits pf _ s hend h0 hfit]; simp only; omega)]
            exact ⟨hb, hh⟩

/-! ## C1: the arena invariant -/

/-- C1, evaluated on the code: the invariant `buf ≤ head ≤ end` is not kept.
On a 16-byte arena at address 32 the first `lin_alloc_malloc(1)` succeeds and
leaves `head = 41`, a state that satisfies the invariant.  The second
`lin_alloc_malloc(1)` re-aligns `head` to `41 + 41 % 32 = 50`, past `end = 48`,
before any bounds check, then returns `NULL` with `head` still at 50. -/
theorem lin_alloc_malloc_breaks_invariant :
    arena16_used.allocator = { buf := 32, head := 41, end_ := 48 } ∧
    ArenaInv arena16_used.allocator ∧
    (lin_alloc_malloc lp64 1 arena16_used).1 = NULL ∧
    (lin_alloc_malloc lp64 1 arena16_used).2.allocator = { buf := 32, head := 50, end_ := 48 } ∧
    ¬ ArenaInv (lin_alloc_malloc lp64 1 arena16_used).2.allocator := by
  decide

/-! ## C2, C3: alignment of the returned pointers -/

/-- C2, evaluated on the code: on a fresh arena at address 32,
`lin_alloc_aligned_malloc(32, 4)` returns the non-null pointer 48, which is not
a multiple of the alignment 32 (a power of two): `lin_alloc_realign` adds
`head % alignment = 8` to `head = 40` instead of `alignment - 8`. -/
theorem lin_alloc_aligned_malloc_misaligned :
    (lin_alloc_aligned_malloc lp64 32 4 arena128).1 = 48 ∧
    (lin_alloc_aligned_malloc lp64 32 4 arena128).1 ≠ NULL ∧
    ¬ (32 ∣ (lin_alloc_aligned_malloc lp64 32 4 arena128).1) := by
  decide

/-- C3, evaluated on the code: with `head = 41` and `sizeof(max_align_t) = 32`,
`lin_alloc_malloc(1)` returns 58, so the header sits at address 50.  That is not
a multiple of 32, and it is not the smallest multiple of 32 at or above the old
head, which is 64. -/
theorem lin_alloc_malloc_header_misaligned :
    arena128_used.allocator.head = 41 ∧
    (lin_alloc_malloc lp64 1 arena128_used).1 = 58 ∧
    (lin_alloc_malloc lp64 1 arena128_used).1 - lp64.sizeof_size_t = 50 ∧
    ¬ (lp64.sizeof_max_align_t ∣ (lin_alloc_malloc lp64 1 arena128_used).1 - lp64.sizeof_size_t) ∧
    (lp64.sizeof_max_align_t ∣ 64 ∧ 41 ≤ 64 ∧
      ∀ k, k < 64 → 41 ≤ k → ¬ (lp64.sizeof_max_align_t ∣ k)) := by
  decide

/-! ## C4, C5: the bounds check on a request that wraps -/

/-- C4, evaluated on the code: a returned span can cross `end`.  On a fresh
128-byte arena at address 32 (`buf ≤ head ≤ end`) `lin_alloc_malloc(8)` returns
the live block 40 and leaves `head = 48`.  `lin_alloc_realloc(40, SIZE_MAX)`
takes the in-place branch; the sum `head + (SIZE_MAX - 8)` of its
`BOUNDS_CHECK` wraps to 39, which is not above `end = 160`, so the call returns
40 with `head = 39`, although `40 + SIZE_MAX` is far beyond `end`.
`lin_alloc_aligned_malloc(8, SIZE_MAX)` on the fresh arena returns 40 in the
same way. -/
theorem returned_span_crosses_end :
    ArenaInv arena128.allocator ∧
    (lin_alloc_malloc lp64 8 arena128).1 = 40 ∧
    ArenaInv arena128_one.allocator ∧
    Allocated lp64 arena128_one 40 ∧
    (lin_alloc_realloc lp64 40 (SIZE_MAX lp64) arena128_one).1 = 40 ∧
    (lin_alloc_realloc lp64 40 (SIZE_MAX lp64) arena128_one).1 ≠ NULL ∧
    (lin_alloc_realloc lp64 40 (SIZE_MAX lp64) arena128_one).2.allocator
      = { buf := 32, head := 39, end_ := 160 } ∧
    ¬ ((lin_alloc_realloc lp64 40 (SIZE_MAX lp64) arena128_one).1 + SIZE_MAX lp64
        ≤ arena128_one.allocator.end_) ∧
    (lin_alloc_aligned_malloc lp64 8 (SIZE_MAX lp64) arena128).1 = 40 ∧
    ¬ ((lin_alloc_aligned_malloc lp64 8 (SIZE_MAX lp64) arena128).1 + SIZE_MAX lp64
        ≤ arena128.allocator.end_) := by
  decide

/-- C5, evaluated on the code: the success condition is not the stated one.
On a fresh 128-byte arena at address 32 the re-aligned head is `h = 32`, and
for `size = SIZE_MAX` the sum `h + sizeof(size_t) + size` is above `end = 160`,
so the claim has `lin_alloc_malloc` return `NULL`.  The second `BOUNDS_CHECK`
computes `40 + SIZE_MAX` wrapped, which is 39, and passes: the call returns 40
and leaves `head = 39`. -/
theorem lin_alloc_malloc_wrapped_check_passes :
    (lin_alloc_realign lp64 arena128.allocator lp64.sizeof_max_align_t).head = 32 ∧
    SIZE_MAX lp64 ≠ 0 ∧
    32 + lp64.sizeof_size_t ≤ arena128.allocator.end_ ∧
    32 + lp64.sizeof_size_t + SIZE_MAX lp64 > arena128.allocator.end_ ∧
    (lin_alloc_malloc lp64 (SIZE_MAX lp64) arena128).1 = 40 ∧
    (lin_alloc_malloc lp64 (SIZE_MAX lp64) arena128).1 ≠ NULL ∧
    (lin_alloc_malloc lp64 (SIZE_MAX lp64) arena128).2.allocator
      = { buf := 32, head := 39, end_ := 160 } := by
  decide

/-! ## C6: what a failed allocation leaves behind -/

/-- C6, evaluated on the code: a failed allocation moves `head`.  On a fresh
16-byte arena (`head = 32`, `end = 48`) `lin_alloc_malloc(16)` does not fit and
returns `NULL`, but `head` is left at 40: the header was written and `head`
advanced before the payload check.  `lin_alloc_malloc(8)` fits the fresh arena
(it returns 40) and no longer fits after the failed call.  The same happens in
`lin_alloc_aligned_malloc(8, 16)`. -/
theorem failed_allocation_moves_head :
    arena16.allocator = { buf := 32, head := 32, end_ := 48 } ∧
    (lin_alloc_malloc lp64 16 arena16).1 = NULL ∧
    (lin_alloc_malloc lp64 16 arena16).2.allocator = { buf := 32, head := 40, end_ := 48 } ∧
    (lin_alloc_malloc lp64 8 arena16).1 = 40 ∧
    (lin_alloc_malloc lp64 8 (lin_alloc_malloc lp64 16 arena16).2).1 = NULL ∧
    (lin_alloc_aligned_malloc lp64 8 16 arena16).1 = NULL ∧
    (lin_alloc_aligned_malloc lp64 8 16 arena16).2.allocator =
      { buf := 32, head := 40, end_ := 48 } := by
  decide

/-! ## C7: the size header -/

/-- C7: after a successful `lin_alloc_malloc(n)` or
`lin_alloc_aligned_malloc(a, n)` returning `p`, the `size_t` stored in the
`sizeof(size_t)` bytes just before `p`, which is what `lin_alloc_realloc` reads
as `original_size`, equals `n` (a `size_t` value), in every state whose `head`
is a pointer value.  This covers the calls whose bounds check passed on a
wrapped sum. -/
theorem size_header_roundtrip (pf : Platform) (s : State) (n : Nat)
    (hhead : s.allocator.head < pf.size_t_card) (hn : n < pf.size_t_card) :
    ((lin_alloc_malloc pf n s).1 ≠ NULL →
      original_size pf (lin_alloc_malloc pf n s).2.mem (lin_alloc_malloc pf n s).1 = n) ∧
    (∀ a, (lin_alloc_aligned_malloc pf a n s).1 ≠ NULL →
      original_size pf (lin_alloc_aligned_malloc pf a n s).2.mem
        (lin_alloc_aligned_malloc pf a n s).1 = n) := by
  constructor
  · intro h
    obtain ⟨_, hp, hm⟩ := lin_alloc_malloc_success pf n s h
    rw [hp, hm, original_size,
      ptr_sub_ptr_add pf _ (lin_alloc_realign_head_lt pf s.allocator _ hhead),
      load_store_size_t, Nat.mod_eq_of_lt hn]
  · intro a h
    rw [lin_alloc_aligned_malloc_success pf a n s h, original_size, load_store_size_t,
      Nat.mod_eq_of_lt hn]

/-- C7 at concrete calls: the header before the pointer 40 returned by
`lin_alloc_malloc(24)` and the header before the pointer 80 returned by
`lin_alloc_aligned_malloc(16, 24)` both hold 24; and the header before the
pointer 40 that `lin_alloc_malloc(SIZE_MAX)` returns on a wrapped bounds check
holds `SIZE_MAX`. -/
theorem size_header_roundtrip_witness :
    (lin_alloc_malloc lp64 (SIZE_MAX lp64) arena128).1 = 40 ∧
    original_size lp64 (lin_alloc_malloc lp64 (SIZE_MAX lp64) arena128).2.mem
      (lin_alloc_malloc lp64 (SIZE_MAX lp64) arena128).1 = SIZE_MAX lp64 ∧
    (lin_alloc_malloc lp64 24 arena128).1 = 40 ∧
    original_size lp64 (lin_alloc_malloc lp64 24 arena128).2.mem
      (lin_alloc_malloc lp64 24 arena128).1 = 24 ∧
    (lin_alloc_aligned_malloc lp64 16 24 (lin_alloc_malloc lp64 24 arena128).2).1 = 80 ∧
    original_size lp64
      (lin_alloc_aligned_malloc lp64 16 24 (lin_alloc_malloc lp64 24 arena128).2).2.mem
      (lin_alloc_aligned_malloc lp64 16 24 (lin_alloc_malloc lp64 24 arena128).2).1 = 24 :=
  ⟨by decide,
    (size_header_roundtrip lp64 arena128 (SIZE_MAX lp64) (by decide) (by decide)).1
      (by decide),
    by decide,
    (size_header_roundtrip lp64 arena128 24 (by decide) (by decide)).1 (by decide),
    by decide,
    (size_header_roundtrip lp64 (lin_alloc_malloc lp64 24 arena128).2 24 (by decide)
      (by decide)).2 16 (by decide)⟩

/-! ## C8, C9: growing the most recent allocation -/

/-- C8: in an arena whose `end` is a pointer value, let `p` be non-null, carry
the size header `n` that `lin_alloc_malloc(n)` wrote before it, and be the most
recent allocation (`p + n = head`).  For every `m > n` with `p + m ≤ end`,
`lin_alloc_realloc(p, m)` returns `p` itself, sets `head` to `p + m`, leaves
`buf` and `end` alone and changes no byte of memory, in particular none of the
first `n` payload bytes. -/
theorem realloc_grows_in_place (pf : Platform) (s : State) (p n m : Nat)
    (hend : s.allocator.end_ < pf.size_t_card)
    (hp : p ≠ NULL) (hhdr : original_size pf s.mem p = n)
    (hlast : p + n = s.allocator.head) (hnm : n < m) (hfit : p + m ≤ s.allocator.end_) :
    (lin_alloc_realloc pf p m s).1 = p ∧
    (lin_alloc_realloc pf p m s).2.allocator.head = p + m ∧
    (lin_alloc_realloc pf p m s).2.allocator.buf = s.allocator.buf ∧
    (lin_alloc_realloc pf p m s).2.allocator.end_ = s.allocator.end_ ∧
    (∀ a, (lin_alloc_realloc pf p m s).2.mem a = s.mem a) := by
  have hm0 : m ≠ 0 := by omega
  have hge : ¬ (n ≥ m) := by omega
  have hsum : ptr_add pf p n = s.allocator.head := by
    rw [ptr_add_of_lt pf p n (by omega)]
    exact hlast
  have hgrow : ptr_add pf s.allocator.head (m - n) = p + m := by
    rw [ptr_add_of_lt pf _ _ (by omega)]
    omega
  have hbc : BOUNDS_CHECK pf s.allocator (m - n) = false := by
    simp only [BOUNDS_CHECK, hgrow, decide_eq_false_iff_not, not_lt, gt_iff_lt]
    exact hfit
  unfold lin_alloc_realloc
  simp only [hm0, hp, hhdr, hge, hsum, hbc, hgrow, if_false, if_true, Bool.false_eq_true]
  exact ⟨trivial, trivial, trivial, trivial, fun _ => trivial⟩

/-- C8 at a concrete call: `p = 40` comes from `lin_alloc_malloc(8)` on a fresh
128-byte arena, and `lin_alloc_realloc(40, 16)` returns 40 with `head = 56`. -/
theorem realloc_grows_in_place_witness :
    (lin_alloc_malloc lp64 8 arena128).1 = 40 ∧
    ((lin_alloc_realloc lp64 40 16 (lin_alloc_malloc lp64 8 arena128).2).1 = 40 ∧
      (lin_alloc_realloc lp64 40 16 (lin_alloc_malloc lp64 8 arena128).2).2.allocator.head
        = 40 + 16 ∧
      (lin_alloc_realloc lp64 40 16 (lin_alloc_malloc lp64 8 arena128).2).2.allocator.buf
        = (lin_alloc_malloc lp64 8 arena128).2.allocator.buf ∧
      (lin_alloc_realloc lp64 40 16 (lin_alloc_malloc lp64 8 arena128).2).2.allocator.end_
        = (lin_alloc_malloc lp64 8 arena128).2.allocator.end_ ∧
      (∀ a, (lin_alloc_realloc lp64 40 16 (lin_alloc_malloc lp64 8 arena128).2).2.mem a
        = (lin_alloc_malloc lp64 8 arena128).2.mem a)) :=
  ⟨by decide,
    realloc_grows_in_place lp64 (lin_alloc_malloc lp64 8 arena128).2 40 8 16
      (by decide) (by decide) (by decide) (by decide) (by decide) (by decide)⟩

/-- C9, evaluated on the code: a second growth of the most recent allocation
is not done in place.  On a fresh 128-byte arena `lin_alloc_malloc(8)` returns
`p = 40`; `lin_alloc_realloc(40, 16)` grows it in place (`head = 56 = p + 16`)
but leaves the header at 8.  `lin_alloc_realloc(40, 24)`, with `p + 24 = 64 ≤
end = 160`, then reads `original_size = 8`, finds `p + 8 ≠ head`, and falls back
to a fresh allocation: it returns 88, not 40, and sets `head` to 112, not 64. -/
theorem second_growth_not_in_place :
    (lin_alloc_malloc lp64 8 arena128).1 = 40 ∧
    (lin_alloc_realloc lp64 40 16 (lin_alloc_malloc lp64 8 arena128).2).1 = 40 ∧
    (lin_alloc_realloc lp64 40 16 (lin_alloc_malloc lp64 8 arena128).2).2.allocator =
      { buf := 32, head := 56, end_ := 160 } ∧
    original_size lp64
      (lin_alloc_realloc lp64 40 16 (lin_alloc_malloc lp64 8 arena128).2).2.mem 40 = 8 ∧
    (lin_alloc_realloc lp64 40 24
      (lin_alloc_realloc lp64 40 16 (lin_alloc_malloc lp64 8 arena128).2).2).1 = 88 ∧
    (lin_alloc_realloc lp64 40 24
      (lin_alloc_realloc lp64 40 16 (lin_alloc_malloc lp64 8 arena128).2).2).2.allocator =
      { buf := 32, head := 112, end_ := 160 } := by
  decide

/-! ## C10: capacity exhaustion in `lin_alloc_calloc` and the fallback of `lin_alloc_realloc` -/

/-- C10, evaluated on the code: on exhaustion both functions store through the
null pointer.  `lin_alloc_calloc(4, 8)` on a fresh 16-byte arena gets `NULL`
from the inner `lin_alloc_malloc(32)` and then runs `memset(NULL, 0, 32)`: the
bytes at addresses 0..31, which held `0xAA`, are zero afterwards.  On a full
48-byte arena holding the allocations 40 and 72, `lin_alloc_realloc(40, 16)`
takes the fallback path, gets `NULL` from `lin_alloc_malloc(16)` and runs
`memcpy(NULL, 40, 8)`: the bytes at addresses 0..7 are overwritten. -/
theorem exhaustion_stores_through_null :
    (lin_alloc_calloc lp64 4 8 arena16).1 = NULL ∧
    (∀ a, a < 32 → arena16.mem a = 170 ∧ (lin_alloc_calloc lp64 4 8 arena16).2.mem a = 0) ∧
    (lin_alloc_malloc lp64 8 arena48).1 = 40 ∧
    (lin_alloc_malloc lp64 8 (lin_alloc_malloc lp64 8 arena48).2).1 = 72 ∧
    (lin_alloc_malloc lp64 8 (lin_alloc_malloc lp64 8 arena48).2).2.allocator =
      { buf := 32, head := 80, end_ := 80 } ∧
    original_size lp64 (lin_alloc_malloc lp64 8 (lin_alloc_malloc lp64 8 arena48).2).2.mem 40
      = 8 ∧
    (lin_alloc_realloc lp64 40 16
      (lin_alloc_malloc lp64 8 (lin_alloc_malloc lp64 8 arena48).2).2).1 = NULL ∧
    (∀ a, a < 8 →
      (lin_alloc_malloc lp64 8 (lin_alloc_malloc lp64 8 arena48).2).2.mem a = 170 ∧
      (lin_alloc_realloc lp64 40 16
        (lin_alloc_malloc lp64 8 (lin_alloc_malloc lp64 8 arena48).2).2).2.mem a = 0) := by
  decide

/-! ## C11: a later allocation after a request that wraps -/

/-- C11, evaluated on the code: a later allocation can overlap an earlier one.
On a fresh 128-byte arena at address 32 (`buf ≤ head ≤ end`) the first
`lin_alloc_malloc(8)` returns `p1 = 40`.  `lin_alloc_malloc(2^64 - 40)` then
passes both bounds checks, the second on the wrapped sum `72 + (2^64 - 40) =
32`, returns 72 and leaves `head = 32`, back at `buf`.  The next
`lin_alloc_malloc(8)` returns `p2 = 40 = p1`: its span `[32, 48)` does not start
at or after `p1 + n1 = 48`. -/
theorem wrapped_allocation_overlaps_earlier :
    ArenaInv arena128.allocator ∧
    (lin_alloc_malloc lp64 8 arena128).1 = 40 ∧
    (lin_alloc_malloc lp64 (lp64.size_t_card - 40) arena128_one).1 = 72 ∧
    (lin_alloc_malloc lp64 (lp64.size_t_card - 40) arena128_one).2.allocator
      = { buf := 32, head := 32, end_ := 160 } ∧
    (lin_alloc_malloc lp64 8
      (lin_alloc_malloc lp64 (lp64.size_t_card - 40) arena128_one).2).1 = 40 ∧
    ¬ (40 + 8 ≤
      (lin_alloc_malloc lp64 8
        (lin_alloc_malloc lp64 (lp64.size_t_card - 40) arena128_one).2).1
        - lp64.sizeof_size_t) := by
  decide

/-! ## C12: `lin_alloc_calloc` is `lin_alloc_malloc` followed by a zero-fill -/

/-- C19: `lin_alloc_destroy` sets `buf`, `head` and `end` to null, and from
that state `lin_alloc_malloc(size)` and `lin_alloc_aligned_malloc(alignment,
size)` return `NULL` and leave the three fields null, for every size and every
alignment. -/
theorem destroyed_arena_allocates_nothing (pf : Platform) (s : State)
    (size alignment : Nat) :
    (lin_alloc_destroy s).allocator = { buf := 0, head := 0, end_ := 0 } ∧
    (lin_alloc_malloc pf size (lin_alloc_destroy s)).1 = NULL ∧
    (lin_alloc_malloc pf size (lin_alloc_destroy s)).2.allocator
      = { buf := 0, head := 0, end_ := 0 } ∧
    (lin_alloc_aligned_malloc pf alignment size (lin_alloc_destroy s)).1 = NULL ∧
    (lin_alloc_aligned_malloc pf alignment size (lin_alloc_destroy s)).2.allocator
      = { buf := 0, head := 0, end_ := 0 } := by
  have hS := pf.size_t_pos
  have hadd : ptr_add pf 0 pf.sizeof_size_t = pf.sizeof_size_t := by
    rw [ptr_add_of_lt pf 0 _ (by have := sizeof_size_t_lt_card pf; omega), Nat.zero_add]
  refine ⟨rfl, ?_, ?_, ?_, ?_⟩
  · by_cases h0 : size = 0
    · simp [lin_alloc_malloc, h0]
    · simp [lin_alloc_malloc, lin_alloc_realign_eq, lin_alloc_destroy, BOUNDS_CHECK, h0, hS,
        hadd]
  · by_cases h0 : size = 0
    · simp [lin_alloc_malloc, lin_alloc_destroy, h0]
    · simp [lin_alloc_malloc, lin_alloc_realign_eq, lin_alloc_destroy, BOUNDS_CHECK, h0, hS,
        hadd]
  · simp [lin_alloc_aligned_malloc, lin_alloc_destroy, BOUNDS_CHECK, hS, hadd]
  · simp [lin_alloc_aligned_malloc, lin_alloc_destroy, BOUNDS_CHECK, hS, hadd]

/-! ## C13, C14: the memory hook registry -/

/-- C13, evaluated on the code: under the default hook the block handed to the
platform is not `p`.  `default_aligned_free(ptr, context)` passes `context` on,
and the default context is 0, so for every pointer `p`, on every build target,
`roaring_aligned_free(p)` issues the platform free with the argument 0; with
`p = 4096` on the POSIX target the one call made is `free(0)`, not
`free(4096)`. -/
theorem default_aligned_free_releases_context :
    (∀ (p : Nat) (w : World),
      (roaring_aligned_free p (default_process Target.posix w)).world.calls
        = w.calls ++ [PlatformCall.free 0] ∧
      (roaring_aligned_free p (default_process Target.msvc w)).world.calls
        = w.calls ++ [PlatformCall.msvc_aligned_free 0] ∧
      (roaring_aligned_free p (default_process Target.mingw w)).world.calls
        = w.calls ++ [PlatformCall.mingw_aligned_free 0]) ∧
    (roaring_aligned_free 4096 (default_process Target.posix fresh_world)).world.calls
      = [PlatformCall.free 0] ∧
    (roaring_aligned_free 4096 (default_process Target.posix fresh_world)).world.calls
      ≠ [PlatformCall.free 4096] ∧
    (roaring_free 4096 (default_process Target.posix fresh_world)).world.calls
      = [PlatformCall.free 4096] := by
  refine ⟨fun p w => ⟨rfl, rfl, rfl⟩, ?_, ?_, ?_⟩ <;> decide

/-- C14: after `roaring_init_memory_hook(h)`, whatever hook was registered
before, each of the six entry points is one application of the same-named
function of `h` to the caller's arguments, in order, followed by `h.context`:
the pointer returned is that function's result, the world is the one that one
application leaves, and `h` stays registered. -/
theorem registry_forwards_to_registered_hook {σ : Type} (h : roaring_memory_t σ)
    (g : Process σ) (n p c sz a : Nat) :
    roaring_malloc n (roaring_init_memory_hook h g)
      = ((h.malloc n h.context g.world).1,
          { global_memory_hook := h, world := (h.malloc n h.context g.world).2 }) ∧
    roaring_realloc p n (roaring_init_memory_hook h g)
      = ((h.realloc p n h.context g.world).1,
          { global_memory_hook := h, world := (h.realloc p n h.context g.world).2 }) ∧
    roaring_calloc c sz (roaring_init_memory_hook h g)
      = ((h.calloc c sz h.context g.world).1,
          { global_memory_hook := h, world := (h.calloc c sz h.context g.world).2 }) ∧
    roaring_free p (roaring_init_memory_hook h g)
      = { global_memory_hook := h, world := h.free p h.context g.world } ∧
    roaring_aligned_malloc a sz (roaring_init_memory_hook h g)
      = ((h.aligned_malloc a sz h.context g.world).1,
          { global_memory_hook := h, world := (h.aligned_malloc a sz h.context g.world).2 }) ∧
    roaring_aligned_free p (roaring_init_memory_hook h g)
      = { global_memory_hook := h, world := h.aligned_free p h.context g.world } :=
  ⟨rfl, rfl, rfl, rfl, rfl, rfl⟩

/-- The registry on recording hooks: with a hook of context 1 registered first
and a hook of context 2 registered over it, each entry point adds exactly one
call to the record, with the caller's arguments followed by the context 2, and
returns the answer 200 of the second hook. -/
theorem registry_forwarding_example :
    (roaring_malloc 24
        (roaring_init_memory_hook (recording_hook 2 200)
          { global_memory_hook := recording_hook 1 100, world := [] })).1 = 200 ∧
    (roaring_malloc 24
        (roaring_init_memory_hook (recording_hook 2 200)
          { global_memory_hook := recording_hook 1 100, world := [] })).2.world
      = [HookCall.malloc 24 2] ∧
    (roaring_realloc 200 48
        (roaring_init_memory_hook (recording_hook 2 200)
          { global_memory_hook := recording_hook 1 100, world := [] })).2.world
      = [HookCall.realloc 200 48 2] ∧
    (roaring_calloc 3 8
        (roaring_init_memory_hook (recording_hook 2 200)
          { global_memory_hook := recording_hook 1 100, world := [] })).2.world
      = [HookCall.calloc 3 8 2] ∧
    (roaring_free 200
        (roaring_init_memory_hook (recording_hook 2 200)
          { global_memory_hook := recording_hook 1 100, world := [] })).world
      = [HookCall.free 200 2] ∧
    (roaring_aligned_malloc 32 64
        (roaring_init_memory_hook (recording_hook 2 200)
          { global_memory_hook := recording_hook 1 100, world := [] })).2.world
      = [HookCall.aligned_malloc 32 64 2] ∧
    (roaring_aligned_free 200
        (roaring_init_memory_hook (recording_hook 2 200)
          { global_memory_hook := recording_hook 1 100, world := [] })).world
      = [HookCall.aligned_free 200 2] := by
  decide

/-! ## C15: lookup in the directory -/

/-- In a strictly increasing directory a smaller slot holds a smaller key. -/
theorem keys_lt_of_lt (ra : roaring_array_t) (hsorted : keys_strictly_increasing ra)
    (i j : Nat) (hij : i < j) (hj : (j : Int) < ra.size) : ra.keys i < ra.keys j := by
  induction j with
  | zero => omega
  | succ j ih =>
    have hstep : ra.keys j < ra.keys (j + 1) := hsorted j (by push_cast at hj; omega)
    by_cases h : i = j
    · rw [h]; exact hstep
    · have := ih (by omega) (by push_cast at hj; omega)
      omega

/-- In a strictly increasing directory a key occupies at most one slot. -/
theorem key_slot_unique (ra : roaring_array_t) (hsorted : keys_strictly_increasing ra)
    (i j : Nat) (hi : (i : Int) < ra.size) (hj : (j : Int) < ra.size)
    (h : ra.keys i = ra.keys j) : i = j := by
  rcases Nat.lt_trichotomy i j with hlt | heq | hgt
  · have := keys_lt_of_lt ra hsorted i j hlt hj
    omega
  · exact heq
  · have := keys_lt_of_lt ra hsorted j i hgt hi
    omega

/-- C15: let the keys of the occupied slots be strictly increasing and let the
search, on this directory and key, return the index of `x` when `x` is present
and a negative value when it is absent.  Then `ra_get_index(ra, x)` returns the
one slot that holds `x` when `x` is present and a negative value when it is
absent; it returns `-1` on an empty directory and `size - 1` when `x` is the last
key; and it agrees with the search alone: the same index when `x` is present,
a negative value like the search when it is absent. -/
theorem ra_get_index_correct (binarySearch : (Nat → Nat) → Int → Nat → Int)
    (ra : roaring_array_t) (x : Nat)
    (hsorted : keys_strictly_increasing ra)
    (hfound : ∀ i : Nat, (i : Int) < ra.size → ra.keys i = x →
      binarySearch ra.keys ra.size x = (i : Int))
    (habsent : (∀ i : Nat, (i : Int) < ra.size → ra.keys i ≠ x) →
      binarySearch ra.keys ra.size x < 0) :
    (∀ i : Nat, (i : Int) < ra.size → ra.keys i = x →
      ra_get_index binarySearch ra x = (i : Int)) ∧
    ((∀ i : Nat, (i : Int) < ra.size → ra.keys i ≠ x) →
      ra_get_index binarySearch ra x < 0) ∧
    (ra.size = 0 → ra_get_index binarySearch ra x = -1) ∧
    (0 < ra.size → ra.keys (ra.size - 1).toNat = x →
      ra_get_index binarySearch ra x = ra.size - 1) ∧
    (∀ i : Nat, (i : Int) < ra.size → ra.keys i = x →
      ra_get_index binarySearch ra x = binarySearch ra.keys ra.size x) ∧
    ((∀ i : Nat, (i : Int) < ra.size → ra.keys i ≠ x) →
      ra_get_index binarySearch ra x < 0 ∧ binarySearch ra.keys ra.size x < 0) := by
  have hpresent : ∀ i : Nat, (i : Int) < ra.size → ra.keys i = x →
      ra_get_index binarySearch ra x = (i : Int) := by
    intro i hi hk
    unfold ra_get_index
    by_cases hfast : ra.size = 0 ∨ ra.keys (ra.size - 1).toNat = x
    · rw [if_pos hfast]
      rcases hfast with h0 | hlast
      · omega
      · have hlt : (((ra.size - 1).toNat : Nat) : Int) < ra.size := by omega
        have := key_slot_unique ra hsorted i (ra.size - 1).toNat hi hlt (by rw [hk, hlast])
        omega
    · rw [if_neg hfast]
      exact hfound i hi hk
  have hmissing : (∀ i : Nat, (i : Int) < ra.size → ra.keys i ≠ x) →
      ra_get_index binarySearch ra x < 0 := by
    intro hno
    unfold ra_get_index
    by_cases hfast : ra.size = 0 ∨ ra.keys (ra.size - 1).toNat = x
    · rw [if_pos hfast]
      rcases hfast with h0 | hlast
      · omega
      · by_cases hpos : 0 < ra.size
        · exact absurd hlast (hno (ra.size - 1).toNat (by omega))
        · omega
    · rw [if_neg hfast]
      exact habsent hno
  refine ⟨hpresent, hmissing, ?_, ?_, ?_, ?_⟩
  · intro h0
    unfold ra_get_index
    rw [if_pos (Or.inl h0), h0]
    rfl
  · intro _ hlast
    unfold ra_get_index
    rw [if_pos (Or.inr hlast)]
  · intro i hi hk
    rw [hpresent i hi hk, hfound i hi hk]
  · intro hno
    exact ⟨hmissing hno, habsent hno⟩

/-- The sample directory is strictly increasing. -/
theorem ra_159_sorted : keys_strictly_increasing ra_159 := by
  intro i hi
  have hi2 : i < 2 := by
    simp only [ra_159] at hi
    omega
  interval_cases i <;> decide

/-- On the sample directory the reference search meets the contract assumed
of `binarySearch`, for every key. -/
theorem reference_search_ra_159 (x : Nat) :
    (∀ i : Nat, (i : Int) < ra_159.size → ra_159.keys i = x →
      reference_search ra_159.keys ra_159.size x = (i : Int)) ∧
    ((∀ i : Nat, (i : Int) < ra_159.size → ra_159.keys i ≠ x) →
      reference_search ra_159.keys ra_159.size x < 0) := by
  constructor
  · intro i hi hk
    have hi3 : i < 3 := by
      simp only [ra_159] at hi
      omega
    subst hk
    interval_cases i <;> decide
  · intro hno
    have h0 : ra_159.keys 0 ≠ x := hno 0 (by decide)
    have h1 : ra_159.keys 1 ≠ x := hno 1 (by decide)
    have h2 : ra_159.keys 2 ≠ x := hno 2 (by decide)
    have hr : (List.range (3 : Int).toNat) = [0, 1, 2] := by decide
    simp only [reference_search, ra_159, hr, List.find?, List.getD_cons_zero,
      List.getD_cons_succ] at *
    simp [h0, h1, h2]

/-- C15 on the sample directory with keys 1, 5, 9: the key 5 is found in
slot 1, the last key 9 in slot `size - 1`, and the absent key 7 gives a
negative value. -/
theorem ra_get_index_correct_witness :
    ra_get_index reference_search ra_159 5 = 1 ∧
    ra_get_index reference_search ra_159 9 = ra_159.size - 1 ∧
    ra_get_index reference_search ra_159 7 < 0 :=
  ⟨(ra_get_index_correct reference_search ra_159 5 ra_159_sorted
      (reference_search_ra_159 5).1 (reference_search_ra_159 5).2).1 1
      (by decide) (by decide),
    (ra_get_index_correct reference_search ra_159 9 ra_159_sorted
      (reference_search_ra_159 9).1 (reference_search_ra_159 9).2).2.2.2.1
      (by decide) (by decide),
    (ra_get_index_correct reference_search ra_159 7 ra_159_sorted
      (reference_search_ra_159 7).1 (reference_search_ra_159 7).2).2.1
      (by
        intro i hi
        have hi3 : i < 3 := by
          simp only [ra_159] at hi
          omega
        interval_cases i <;> decide)⟩

/-! ## C16: sortedness under the in-place mutators -/

/-- C16 as stated fails: on the sorted directory with keys 1, 5, 9 the call
`ra_replace_key_and_container_at_index(ra, 0, 9, c, t)`, with the index 0 in
`[0, size)`, passes its `assert` and leaves the keys 9, 5, 9, which are not
strictly increasing. -/
theorem replace_key_breaks_sortedness :
    keys_strictly_increasing ra_159 ∧ (0 : Int) < ra_159.size ∧
    ∃ r, ra_replace_key_and_container_at_index ra_159 0 9 1000 2 = some r ∧
      r.keys 0 = 9 ∧ r.keys 1 = 5 ∧ ¬ keys_strictly_increasing r :=
  ⟨ra_159_sorted, by decide,
    { ra_159 with
      keys := Function.update ra_159.keys (0 : Int).toNat 9
      containers := Function.update ra_159.containers (0 : Int).toNat 1000
      typecodes := Function.update ra_159.typecodes (0 : Int).toNat 2 },
    rfl, by decide, by decide, fun h => absurd (h 0 (by decide)) (by decide)⟩

/-- C16, amended: on a directory with strictly increasing keys and an index
`i` in `[0, size)`, `ra_set_container_at_index` and
`ra_unshare_container_at_index` pass their `assert`, leave `size` and every key
as they were, and so keep the keys strictly increasing, whatever the other
arguments.  `ra_replace_key_and_container_at_index` passes its `assert` and
keeps the keys strictly increasing exactly when the new key is above
`keys[i-1]` (for `i > 0`) and below `keys[i+1]` (for `i + 1 < size`). -/
theorem mutators_preserve_sortedness
    (get_writable_copy_if_shared : Nat → Nat → Nat × Nat) (ra : roaring_array_t) (i : Int)
    (key c typecode : Nat) (hsorted : keys_strictly_increasing ra)
    (h0 : 0 ≤ i) (hi : i < ra.size) :
    (∃ r, ra_set_container_at_index ra i c typecode = some r ∧
      r.size = ra.size ∧ r.keys = ra.keys ∧ keys_strictly_increasing r) ∧
    (∃ r, ra_unshare_container_at_index get_writable_copy_if_shared ra i.toNat = some r ∧
      r.size = ra.size ∧ r.keys = ra.keys ∧ keys_strictly_increasing r) ∧
    (∃ r, ra_replace_key_and_container_at_index ra i key c typecode = some r ∧
      r.size = ra.size ∧
      (keys_strictly_increasing r ↔
        ((0 < i → ra.keys (i - 1).toNat < key) ∧
          (i + 1 < ra.size → key < ra.keys (i + 1).toNat)))) := by
  refine ⟨?_, ?_, ?_⟩
  · refine ⟨_, if_pos hi, rfl, rfl, hsorted⟩
  · have hlt : ((i.toNat % 65536 : Nat) : Int) < ra.size := by
      have := Nat.mod_le i.toNat 65536
      omega
    refine ⟨_, if_pos hlt, rfl, rfl, hsorted⟩
  · refine ⟨_, if_pos hi, rfl, ?_⟩
    obtain ⟨n, rfl⟩ := Int.eq_ofNat_of_zero_le h0
    simp only [keys_strictly_increasing, Int.toNat_ofNat]
    constructor
    · intro hr
      constructor
      · intro hpos
        have hn : 0 < n := by omega
        have := hr (n - 1) (by omega)
        have e1 : n - 1 + 1 = n := by omega
        have e2 : n - 1 ≠ n := by omega
        have e3 : ((n : Int) - 1).toNat = n - 1 := by omega
        rw [e1, Function.update_same, Function.update_noteq e2] at this
        rw [e3]
        exact this
      · intro hnext
        have := hr n (by omega)
        have e2 : n + 1 ≠ n := by omega
        have e3 : ((n : Int) + 1).toNat = n + 1 := by omega
        rw [Function.update_same, Function.update_noteq e2] at this
        rw [e3]
        exact this
    · rintro ⟨hlo, hhi⟩ j hj
      by_cases hjn : j = n
      · subst hjn
        have e2 : j + 1 ≠ j := by omega
        have e3 : ((j : Int) + 1).toNat = j + 1 := by omega
        rw [Function.update_same, Function.update_noteq e2]
        have := hhi (by omega)
        rw [e3] at this
        exact this
      · by_cases hj1 : j + 1 = n
        · subst hj1
          have e3 : (((j + 1 : Nat) : Int) - 1).toNat = j := by omega
          rw [Function.update_same, Function.update_noteq hjn]
          have := hlo (by omega)
          rw [e3] at this
          exact this
        · rw [Function.update_noteq hj1, Function.update_noteq hjn]
          exact hsorted j hj

/-- C16, amended, on the sample directory with keys 1, 5, 9: replacing the key
of slot 1 by 6, which lies between 1 and 9, keeps the keys strictly
increasing. -/
theorem mutators_preserve_sortedness_witness :
    ∃ r, ra_replace_key_and_container_at_index ra_159 1 6 2000 1 = some r ∧
      r.size = ra_159.size ∧
      (keys_strictly_increasing r ↔
        ((0 < (1 : Int) → ra_159.keys ((1 : Int) - 1).toNat < 6) ∧
          ((1 : Int) + 1 < ra_159.size → 6 < ra_159.keys ((1 : Int) + 1).toNat))) :=
  (mutators_preserve_sortedness sample_unshare ra_159 1 6 2000 1 ra_159_sorted
    (by decide) (by decide)).2.2

/-! ## C17: overwriting a slot -/

/-- C17: on a directory (`size ≤ MAX_CONTAINERS`) and for an index `i` with
`0 ≤ i < size`, `ra_set_container_at_index(ra, i, c, t)` passes its `assert`;
afterwards `ra_get_container_at_index(ra, i, &tc)` returns `c` with `tc = t`,
while `size`, `allocation_size`, every key, and the container and typecode of
every other slot are unchanged.  `ra_replace_key_and_container_at_index(ra, i,
k, c, t)` does the same and sets `keys[i]` to `k`, changing no other key. -/
theorem slot_overwrite (ra : roaring_array_t) (i k c t : Nat)
    (hi : (i : Int) < ra.size) (hmax : ra.size ≤ (MAX_CONTAINERS : Int)) :
    (∃ r, ra_set_container_at_index ra (i : Int) c t = some r ∧
      ra_get_container_at_index r i = (c, t) ∧
      r.size = ra.size ∧ r.allocation_size = ra.allocation_size ∧
      r.keys = ra.keys ∧
      (∀ j, j ≠ i →
        r.containers j = ra.containers j ∧ r.typecodes j = ra.typecodes j)) ∧
    (∃ r, ra_replace_key_and_container_at_index ra (i : Int) k c t = some r ∧
      ra_get_container_at_index r i = (c, t) ∧
      r.size = ra.size ∧ r.allocation_size = ra.allocation_size ∧
      r.keys i = k ∧
      (∀ j, j ≠ i →
        r.keys j = ra.keys j ∧
        r.containers j = ra.containers j ∧ r.typecodes j = ra.typecodes j)) := by
  have hfit : i % 65536 = i := by
    apply Nat.mod_eq_of_lt
    simp only [MAX_CONTAINERS] at hmax
    omega
  constructor
  · refine ⟨_, if_pos hi, ?_, rfl, rfl, rfl, ?_⟩
    · unfold ra_get_container_at_index
      simp only [Int.toNat_ofNat]
      rw [hfit, Function.update_same, Function.update_same]
    · intro j hj
      simp only [Int.toNat_ofNat]
      exact ⟨Function.update_noteq hj _ _, Function.update_noteq hj _ _⟩
  · refine ⟨_, if_pos hi, ?_, rfl, rfl, ?_, ?_⟩
    · unfold ra_get_container_at_index
      simp only [Int.toNat_ofNat]
      rw [hfit, Function.update_same, Function.update_same]
    · simp only [Int.toNat_ofNat, Function.update_same]
    · intro j hj
      simp only [Int.toNat_ofNat]
      exact ⟨Function.update_noteq hj _ _, Function.update_noteq hj _ _,
        Function.update_noteq hj _ _⟩

/-- C17 on the sample directory: the container 2000 stored with typecode 1 in
slot 1 is read back from slot 1, and the key of slot 1 is still 5. -/
theorem slot_overwrite_witness :
    ra_159.keys 1 = 5 ∧
    ∃ r, ra_set_container_at_index ra_159 ((1 : Nat) : Int) 2000 1 = some r ∧
      ra_get_container_at_index r 1 = (2000, 1) ∧
      r.size = ra_159.size ∧ r.allocation_size = ra_159.allocation_size ∧
      r.keys = ra_159.keys ∧
      (∀ j, j ≠ 1 →
        r.containers j = ra_159.containers j ∧ r.typecodes j = ra_159.typecodes j) :=
  ⟨by decide, (slot_overwrite ra_159 1 6 2000 1 (by decide) (by decide)).1⟩

end CRoaring
